import Mathlib

/-!
# Verification of the poker table rendering engine

A shallow embedding, in Lean 4, of the core rendering engine of the
`drills-creator` repository (package `poker_viz`): the game-data model and
hero-relative seat mapping (`game_data.py`), the per-player-count seat
geometry (`config.py`), the chip denomination decomposition and chip
rendering control flow (`chip_drawer.py`), the player disc rendering
control flow (`player_drawer.py`), the card lookup-key computation and
fallback drawing (`card_drawer.py`), and the template caching scheme of the
compositor (`poker_table_visualizer.py`).

Modelling conventions:

* Python floats that hold money amounts (stacks, bets, chips) are modelled
  exactly as integer numbers of tenths of a big blind; every denomination
  in the canonical chip set is a multiple of 0.1 BB, and the code rounds
  the running remainder to two decimals precisely so that it behaves like
  exact arithmetic on this grid.  Geometric coordinates are modelled as
  exact rationals (`ℚ`); `int(...)` truncation on non-negative values is
  `Nat` division.
* Python dicts with string keys are modelled as association lists in
  insertion order; `d[k]` is `List.lookup`, `k in d` is `(List.lookup k
  d).isSome`, and `d[k] = v` is an insert-or-overwrite operation.
* Rendering is modelled at the level of draw events: each drawer method
  produces the list of items it composites, in order; code that raises is
  modelled with `Except`.
-/

/-- A player record, as consumed by `GameDataProcessor.process_game_data`.
`stack` and `chips_on_table` are in tenths of a big blind. -/
structure Player where
  position : String
  stack : Int
  chips_on_table : Int
  is_hero : Bool
  is_folded : Bool
  is_active : Bool
  is_dealer : Bool
deriving DecidableEq, Repr

/-- The normalized game state (`game` object of the input JSON): ordered
player list, pot (tenths of a big blind), optional board string, and the
code of the position currently acting. -/
structure GameState where
  players : List Player
  pot : Int
  board : String
  active_position : String
deriving DecidableEq, Repr

namespace GameData

/-- `self.num_players = len(self.players)`. -/
def num_players (gs : GameState) : Nat := gs.players.length

/-- `self.active_players = [p for p in self.players if not p.get("is_folded", False)]`. -/
def active_players (gs : GameState) : List Player :=
  gs.players.filter (fun p => !p.is_folded)

/-- `self.hero = next((p for p in self.players if p.get("is_hero", False)), None)`. -/
def hero (gs : GameState) : Option Player :=
  gs.players.find? (fun p => p.is_hero)

/-- `hero_position = hero_player.get("position") if hero_player else None`. -/
def hero_position (gs : GameState) : Option String :=
  (hero gs).map (fun p => p.position)

/-- The table `standard_positions_by_count` of `get_position_mapping`,
looked up with default `[]` (Python `dict.get(num_players, [])`). -/
def standard_positions_by_count (n : Nat) : List String :=
  match n with
  | 9 => ["UTG", "UTG+1", "UTG+2", "LJ", "HJ", "CO", "BTN", "SB", "BB"]
  | 8 => ["UTG", "UTG+1", "LJ", "HJ", "CO", "BTN", "SB", "BB"]
  | 7 => ["UTG", "LJ", "HJ", "CO", "BTN", "SB", "BB"]
  | 6 => ["LJ", "HJ", "CO", "BTN", "SB", "BB"]
  | 5 => ["HJ", "CO", "BTN", "SB", "BB"]
  | 4 => ["CO", "BTN", "SB", "BB"]
  | 3 => ["BTN", "SB", "BB"]
  | 2 => ["SB", "BB"]
  | _ => []

/-- Python `list.index`, as an `Option` (the source catches the
`ValueError` that `.index` raises when the element is absent). -/
def listIndex (xs : List String) (x : String) : Option Nat :=
  match xs with
  | [] => none
  | y :: ys => if y = x then some 0 else (listIndex ys x).map (· + 1)

/-- Insert-or-overwrite on an insertion-ordered association list:
`d[k] = v` on a Python dict. -/
def dictInsert (m : List (String × Nat)) (k : String) (v : Nat) :
    List (String × Nat) :=
  if m.any (fun p => p.1 = k) then
    m.map (fun p => if p.1 = k then (k, v) else p)
  else
    m ++ [(k, v)]

/-- `GameDataProcessor._get_default_mapping`, in dict insertion order.
Note that both `"BB"` and `"UTG"` are assigned seat 8. -/
def get_default_mapping : List (String × Nat) :=
  [("BB", 8), ("SB", 1), ("BTN", 2), ("CO", 3), ("HJ", 4),
   ("LJ", 5), ("UTG+2", 6), ("UTG+1", 7), ("UTG", 8)]

/-- The body of `get_position_mapping`, factored through the only data it
reads from `self`: `num_players` and the hero position (`None` when there
is no hero).  `if hero_position and standard_positions:` tests Python
truthiness, so an empty hero-position string falls back as well. -/
def position_map_of (n : Nat) (heroPos : Option String) :
    List (String × Nat) :=
  let standard := standard_positions_by_count n
  match heroPos with
  | some hp =>
    if hp ≠ "" ∧ standard ≠ [] then
      match listIndex standard hp with
      | some h =>
        (List.range n).map (fun i => (standard.getD ((h + i) % n) "", i))
      | none => dictInsert get_default_mapping hp 0
    else get_default_mapping
  | none => get_default_mapping

/-- `GameDataProcessor.get_position_mapping`. -/
def get_position_mapping (gs : GameState) : List (String × Nat) :=
  position_map_of (num_players gs) (hero_position gs)

end GameData

namespace Config

/-- `PokerTableConfig`: the two constructor inputs.  `scale_factor` is a
positive integer in every call site (default 2, batch callers pass 1). -/
structure PokerTableConfig where
  scale_factor : Nat
  num_players : Nat
deriving DecidableEq, Repr

def base_width : Nat := 1432

def base_height : Nat := 849

/-- `self.width = int(self.base_width * self.scale_factor)`. -/
def width (c : PokerTableConfig) : Nat := base_width * c.scale_factor

/-- `self.height = int(self.base_height * self.scale_factor)`. -/
def height (c : PokerTableConfig) : Nat := base_height * c.scale_factor

/-- `self.table_center_x = self.width // 2`. -/
def table_center_x (c : PokerTableConfig) : Nat := width c / 2

/-- `self.table_center_y = int(self.height * 0.44)` (truncation of a
non-negative product: `Nat` division by 100). -/
def table_center_y (c : PokerTableConfig) : Nat := height c * 44 / 100

/-- `self.table_width = int(self.width * 0.80)`. -/
def table_width (c : PokerTableConfig) : Nat := width c * 80 / 100

/-- `self.table_height = int(self.height * 0.5)`. -/
def table_height (c : PokerTableConfig) : Nat := height c * 5 / 10

/-- `self.player_radius = 70 * self.scale_factor`. -/
def player_radius (c : PokerTableConfig) : Nat := 70 * c.scale_factor

/-- The guard of `_init_seat_positions`: an unsupported player count is
replaced by the fixed default 8 (with a logged warning, a side effect not
modelled here). -/
def clampPlayerCount (n : Nat) : Nat :=
  if n = 2 ∨ n = 3 ∨ n = 4 ∨ n = 5 ∨ n = 6 ∨ n = 7 ∨ n = 8 ∨ n = 9 then n
  else 8

/-- Seat coordinates are exact rationals (Python floats). -/
abbrev Coord := ℚ × ℚ

def bottom_middle (c : PokerTableConfig) : Coord :=
  ((table_center_x c : ℚ), (table_center_y c : ℚ) + (table_height c : ℚ) * (3 / 4))

def bottom_left (c : PokerTableConfig) : Coord :=
  ((table_center_x c : ℚ) - (table_width c : ℚ) * (3 / 10),
   (table_center_y c : ℚ) + (table_height c : ℚ) * (65 / 100))

def bottom_right (c : PokerTableConfig) : Coord :=
  ((table_center_x c : ℚ) + (table_width c : ℚ) * (3 / 10),
   (table_center_y c : ℚ) + (table_height c : ℚ) * (65 / 100))

def left_middle (c : PokerTableConfig) : Coord :=
  ((table_center_x c : ℚ) - (table_width c : ℚ) * (1 / 2), (table_center_y c : ℚ))

def right_middle (c : PokerTableConfig) : Coord :=
  ((table_center_x c : ℚ) + (table_width c : ℚ) * (1 / 2), (table_center_y c : ℚ))

def top_left (c : PokerTableConfig) : Coord :=
  ((table_center_x c : ℚ) - (table_width c : ℚ) * (3 / 10),
   (table_center_y c : ℚ) - (table_height c : ℚ) * (1 / 2))

def top_middle (c : PokerTableConfig) : Coord :=
  ((table_center_x c : ℚ),
   (table_center_y c : ℚ) - (table_height c : ℚ) * (57 / 100))

def top_right (c : PokerTableConfig) : Coord :=
  ((table_center_x c : ℚ) + (table_width c : ℚ) * (3 / 10),
   (table_center_y c : ℚ) - (table_height c : ℚ) * (1 / 2))

def right_top (c : PokerTableConfig) : Coord :=
  ((table_center_x c : ℚ) + (table_width c : ℚ) * (1 / 2),
   (table_center_y c : ℚ) - (table_height c : ℚ) * (3 / 10))

def right_bottom (c : PokerTableConfig) : Coord :=
  ((table_center_x c : ℚ) + (table_width c : ℚ) * (1 / 2),
   (table_center_y c : ℚ) + (table_height c : ℚ) * (3 / 10))

/-- `_init_seat_positions`: the per-count seat table, selected by the
clamped player count (the `if`/`elif` chain of the source; the final `[]`
arm is unreachable because the count has been clamped to 2..9). -/
def seat_positions (c : PokerTableConfig) : List Coord :=
  let m := clampPlayerCount c.num_players
  if m = 2 then [bottom_middle c, top_middle c]
  else if m = 3 then [bottom_middle c, top_left c, top_right c]
  else if m = 4 then [bottom_middle c, left_middle c, top_left c, top_right c]
  else if m = 5 then
    [bottom_middle c, left_middle c, top_left c, top_right c, right_middle c]
  else if m = 6 then
    [bottom_middle c, bottom_left c, left_middle c, top_middle c,
     right_middle c, bottom_right c]
  else if m = 7 then
    [bottom_middle c, bottom_left c, left_middle c, top_middle c,
     top_right c, right_middle c, bottom_right c]
  else if m = 8 then
    [bottom_middle c, bottom_left c, left_middle c, top_left c,
     top_middle c, top_right c, right_middle c, bottom_right c]
  else if m = 9 then
    [bottom_middle c, bottom_left c, left_middle c, top_left c,
     top_middle c, top_right c, right_top c, right_bottom c, bottom_right c]
  else []

/-- `nearestSupported` is NOT part of the source: it is the spec sentence
"clamp to the nearest supported value" (section 7 of the spec) written as
a definition, to be compared against `clampPlayerCount`. -/
def nearestSupported (n : Nat) : Nat :=
  if n < 2 then 2 else if n ≤ 9 then n else 9

end Config

namespace Chips

open GameData Config

/-- The canonical denomination list of `draw_player_chips`, in descending
order, in tenths of a big blind: `[100, 50, 10, 5, 1, 0.5, 0.1]` BB. -/
def denominations : List Nat := [1000, 500, 100, 50, 10, 5, 1]

/-- Number of binary digits of `n` (Python `int.bit_length`), written with
an explicit fuel argument so that it is structural and kernel-reducible;
`bit_len 64 n` is exact for every `n < 2^64`. -/
def bit_len : Nat → Nat → Nat
  | 0, _ => 0
  | fuel + 1, n => if n = 0 then 0 else bit_len fuel (n / 2) + 1

/-- The IEEE-754 binary64 value nearest to `r / 10`, as an exact
mantissa/exponent pair `(m, k)` denoting `m / 2^k`: the bet amounts and
the denominations `0.5` and `0.1` are Python floats, and their exact
double values drive the loop's floor divisions.  The scaled value
`r * 2^k / 10` is normalized into `[2^52, 2^53)` and its nearest integer
taken as the mantissa; since `k ≥ 1`, `r * 2^k` is even, so the scaled
value is never exactly half-way between integers and rounding half up
equals IEEE round-to-nearest-even.  Exact for `0 ≤ r < 2^54`, far beyond
any bet (`2^53` tenths is about 9·10^14 BB); e.g. `fl10m 3` is the double
`0.29999999999999998889776975374843...`, strictly below `0.3`, while
`fl10m 1` is strictly above `0.1`. -/
def fl10m (r : Nat) : Nat × Nat :=
  if r = 0 then (0, 0)
  else
    let b := bit_len 64 r - 1
    let k := if 2 ^ 52 * 10 ≤ r * 2 ^ (55 - b) then 55 - b else 56 - b
    ((r * 2 ^ k + 5) / 10, k)

/-- `int(remaining // denom)` on the tenths grid, with Python float
semantics: for positive finite doubles `x`, `y`, CPython's float floor
division returns the floor of the exact real quotient of the two operand
values (`float_divmod` computes the exact `fmod` of the doubles and
corrects the rounded quotient), and `int` of the resulting integral float
is exact.  With `x = mr/2^kr` and `y = md/2^kd` the floor of `x / y` is
the natural-number quotient `mr * 2^kd / (md * 2^kr)`.  This is where the
doubles matter: `pyFloorDiv10 3 1 = 2`, i.e. `0.3 // 0.1 == 2.0` in
Python. -/
def pyFloorDiv10 (r d : Nat) : Nat :=
  (fl10m r).1 * 2 ^ (fl10m d).2 / ((fl10m d).1 * 2 ^ (fl10m r).2)

/-- One pass of the greedy loop of `draw_player_chips`:
`count = int(remaining // denom)` with float semantics (`pyFloorDiv10`),
extend the stack with `count` copies, then `remaining -= count * denom`
followed by `remaining = round(remaining, 2)`.  The rounding step lands
the float back on the tenths grid at `remaining - count * denom` — both
operands are within well under `0.005` of their decimal values, the
target has one decimal digit, and `round(x, 2)` performs correct decimal
rounding — so the loop state is carried as the exact tenths count (on the
canonical list the count never exceeds `remaining / denom`, so the `Nat`
subtraction is exact; when `count = 0` the source skips the update and
`remaining - 0 * d = remaining` agrees). -/
def chip_stack_go : List Nat → Nat → List Nat
  | [], _ => []
  | d :: ds, remaining =>
    List.replicate (pyFloorDiv10 remaining d) d ++
      chip_stack_go ds (remaining - pyFloorDiv10 remaining d * d)

/-- The denomination decomposition of `draw_player_chips` (the stack built
for one player), on a bet of `t` tenths of a big blind. -/
def chip_stack (t : Nat) : List Nat := chip_stack_go denominations t

/-- The two ways `draw_player_chips` can raise: the explicit `ValueError`
for a position absent from the seat mapping, and the `IndexError` from
`self.config.seat_positions[seat_index]` on an out-of-range seat. -/
inductive ChipError where
  | positionNotFound (position : String)
  | seatOutOfRange (seatIndex : Nat)
deriving DecidableEq, Repr

/-- One rendered chip stack with its bet label: the draw events emitted
for one player by `draw_player_chips` (stack of denomination discs plus
the total-value text beside it). -/
structure ChipDraw where
  position : String
  seatIndex : Nat
  stack : List Nat
  amount : Int
deriving DecidableEq, Repr

/-- The player loop of `draw_player_chips` over the remaining players:
skip `chips <= 0`; hero is forced to seat 0; a position absent from the
seat mapping raises `ValueError`; the seat is then used to index
`seat_positions` (raising `IndexError` if out of range). -/
def draw_player_chips_go (c : PokerTableConfig) (m : List (String × Nat)) :
    List Player → Except ChipError (List ChipDraw)
  | [] => .ok []
  | p :: ps =>
    if p.chips_on_table ≤ 0 then draw_player_chips_go c m ps
    else
      let seat? : Option Nat :=
        if p.is_hero then some 0 else List.lookup p.position m
      match seat? with
      | none => .error (.positionNotFound p.position)
      | some seat =>
        if seat < (seat_positions c).length then
          match draw_player_chips_go c m ps with
          | .ok rest =>
            .ok ({ position := p.position, seatIndex := seat,
                   stack := chip_stack p.chips_on_table.toNat,
                   amount := p.chips_on_table } :: rest)
          | .error e => .error e
        else .error (.seatOutOfRange seat)

/-- `ChipDrawer.draw_player_chips`: computes the seat mapping once, then
runs the player loop. -/
def draw_player_chips (c : PokerTableConfig) (gs : GameState) :
    Except ChipError (List ChipDraw) :=
  draw_player_chips_go c (get_position_mapping gs) gs.players

end Chips

namespace Cards

open GameData Config

/-- The rank/suit computation at the top of `CardDrawer.draw_card` (and,
identically, `_draw_fallback_card`): `rank = card[0].upper()`,
`suit = card[1].lower()`, and if `rank == "1" and len(card) > 2 and
card[1] == "0"` then `rank = "T"` and `suit = card[2].lower()`. -/
def card_rank_suit (card : String) : String × Char :=
  let cs := card.toList
  let rank := (cs.getD 0 ' ').toUpper
  let suit := (cs.getD 1 ' ').toLower
  if rank = '1' ∧ card.length > 2 ∧ cs.getD 1 ' ' = '0' then
    ("T", (cs.getD 2 ' ').toLower)
  else (rank.toString, suit)

/-- The image lookup key (the stem of `f"{rank}{suit}.png"`). -/
def card_key (card : String) : String :=
  (card_rank_suit card).1 ++ (card_rank_suit card).2.toString

/-- The claim side of C9, written from the claim text, for comparison with
`card_rank_suit`: the key is the uppercased rank character followed by the
lowercased suit character, with rank "10" normalized to "T" (in which case
the suit is the third character). -/
def claim_card_key (card : String) : String :=
  let cs := card.toList
  if (cs.getD 0 ' ').toUpper = '1' ∧ card.length > 2 ∧ cs.getD 1 ' ' = '0' then
    "T" ++ (cs.getD 2 ' ').toLower.toString
  else
    (cs.getD 0 ' ').toUpper.toString ++ (cs.getD 1 ' ').toLower.toString

/-- Outcome of one `draw_card` call. `skipped` is the early return on a
code shorter than two characters; `fromAsset` composites the resized (and
possibly rotated) card image; `fallback` is `_draw_fallback_card`, which
paints a card face of the requested `width`/`height` (border, corner
rank/suit text, centered suit glyph) at the requested point. -/
inductive CardDrawResult where
  | skipped
  | fromAsset (key : String) (x y : ℚ) (width height : Nat) (rot : Int)
  | fallback (rank : String) (suit : Char) (x y : ℚ) (width height : Nat)
      (rot : Int)
deriving DecidableEq, Repr

/-- `CardDrawer.draw_card`.  `assets` is the set of card-image stems for
which `os.path.exists` succeeds in the cards folder. -/
def draw_card (assets : List String) (card : String) (x y : ℚ)
    (width height : Nat) (rot : Int) : CardDrawResult :=
  if card.length < 2 then .skipped
  else if card_key card ∈ assets then .fromAsset (card_key card) x y width height rot
  else
    .fallback (card_rank_suit card).1 (card_rank_suit card).2 x y width height rot

/-- Python truthiness of an optional card string (`None` and `""` are
falsy). -/
def truthyCard : Option String → Bool
  | none => false
  | some s => !(s = "")

/-- `CardDrawer.draw_hero_cards`: the early no-op return
`if not self.game_data.hero or not (self.card1 and self.card2)`, then the
two face-up cards at the hero anchor with rotations +5 and -5 degrees. -/
def draw_hero_cards (assets : List String) (c : PokerTableConfig)
    (gs : GameState) (card1 card2 : Option String) : List CardDrawResult :=
  if (hero gs).isNone ∨ !truthyCard card1 ∨ !truthyCard card2 then []
  else
    let heroX : ℚ := (table_center_x c : ℚ) + (player_radius c : ℚ) / (3 / 2)
    let heroY : ℚ := (table_center_y c : ℚ) + (table_height c : ℚ) * (7 / 10)
      - (player_radius c : ℚ) / 4
    let cardWidth : Nat := 80 * c.scale_factor
    let cardHeight : Nat := 120 * c.scale_factor
    let cardOverlap : ℚ := (45 * c.scale_factor : Nat)
    let rectHeight : ℚ := (player_radius c : ℚ) * (12 / 10)
    let cardOffsetX : ℚ := 13
    let cardOffsetY : ℚ := -(rectHeight * (6 / 10))
    let card1Left := heroX - (cardWidth : ℚ) / 2 - cardOverlap / 2 - cardOffsetX
    let card1Top := heroY + cardOffsetY
    let card2Left := heroX - (cardWidth : ℚ) / 2 + cardOverlap / 2 - cardOffsetX
    [draw_card assets (card1.getD "") card1Left card1Top cardWidth cardHeight 5,
     draw_card assets (card2.getD "") card2Left card1Top cardWidth cardHeight (-5)]

end Cards

namespace Render

open GameData Config Chips Cards

/-- The disc state color of `draw_player_circles` (first match wins:
folded, then hero, then active, then default).  A player is treated as
active if its `is_active` flag is set or its position equals the game
state's `active_position`. -/
inductive PlayerColor where
  | folded
  | hero
  | active
  | normal
deriving DecidableEq, Repr

/-- The color branch of `draw_players` / `draw_player_circles`. -/
def color_of (gs : GameState) (p : Player) : PlayerColor :=
  if p.is_folded then .folded
  else if p.is_hero then .hero
  else if p.is_active || p.position = gs.active_position then .active
  else .normal

/-- The seat-index branch of `draw_player_circles`: hero is forced to seat
0; a position absent from the mapping falls back to
`min(8, len(seat_positions) - 1)` instead of raising. -/
def circle_seat_index (c : PokerTableConfig) (m : List (String × Nat))
    (p : Player) : Nat :=
  if p.is_hero then 0
  else
    match List.lookup p.position m with
    | some s => s
    | none => min 8 ((seat_positions c).length - 1)

/-- `PlayerDrawer._get_safe_seat_position`: an out-of-range seat index is
replaced by 0 (the hero seat) instead of raising. -/
def safe_seat_index (c : PokerTableConfig) (seatIndex : Nat) : Nat :=
  if (seat_positions c).length ≤ seatIndex then 0 else seatIndex

end Render

namespace Render

open GameData Config Chips Cards

/-- One compositing event of a render, in z-order.  Payloads record what
the event depends on; pixel content is not modelled. -/
inductive RenderItem where
  | background
  | tableSurface
  | scenarioText
  | potText (pot : Int)
  | playerCircle (position : String) (seatIndex : Nat) (color : PlayerColor)
  | villainCardBack (position : String) (seatIndex : Nat) (rot : Int)
  | panelSkeleton (position : String) (seatIndex : Nat)
  | panelText (position : String) (stack : Int)
  | dealerButton (seatIndex : Nat)
  | heroCards (draws : List CardDrawResult)
  | chipStackDraw (d : ChipDraw)
deriving DecidableEq, Repr

/-- `TableDrawer.draw_table(draw_text)`: background plus table surface;
the scenario and pot text only when `draw_text` is true. -/
def draw_table_items (gs : GameState) (drawText : Bool) : List RenderItem :=
  [.background, .tableSurface] ++
    (if drawText then [.scenarioText, .potText gs.pot] else [])

/-- `TableDrawer.draw_table_text`: the dynamic text pass alone. -/
def draw_table_text_items (gs : GameState) : List RenderItem :=
  [.scenarioText, .potText gs.pot]

/-- `PlayerDrawer.draw_player_circles`: one state-colored disc per player,
in player order; never raises (unknown positions use the fallback seat,
out-of-range coordinates go through `_get_safe_seat_position`). -/
def draw_player_circles (c : PokerTableConfig) (gs : GameState) :
    List RenderItem :=
  let m := get_position_mapping gs
  gs.players.map (fun p =>
    .playerCircle p.position (circle_seat_index c m p) (color_of gs p))

/-- `CardDrawer.draw_player_cards`: two face-down card backs (rotations +5
and -5) for every non-hero, non-folded player whose position is in the
seat mapping; unknown positions are skipped. -/
def draw_player_cards (_c : PokerTableConfig) (gs : GameState) :
    List RenderItem :=
  let m := get_position_mapping gs
  gs.players.foldr
    (fun p acc =>
      if p.is_hero then acc
      else if p.is_folded then acc
      else
        match List.lookup p.position m with
        | some seat =>
          .villainCardBack p.position seat 5 ::
            .villainCardBack p.position seat (-5) :: acc
        | none => acc)
    []

/-- Modelled from the spec: `create_template` calls
`draw_player_rectangles(draw_info=False)` and `create_visualization` calls
`draw_player_text()`, but the `PlayerDrawer` revision present in the
source tree has neither the `draw_info` parameter nor a `draw_player_text`
method (the spec notes the tree mixes incompatible revisions).  Following
spec sections 4.3 ("panel skeletons without per-hand text") and 4.4 (the
panel shows position code and stack; the dealer marker is drawn with the
panel pass), the panel pass emits one skeleton per player, the per-hand
info text only when `drawInfo` is true, and the dealer marker for the
dealer. -/
def draw_player_rectangles (c : PokerTableConfig) (gs : GameState)
    (drawInfo : Bool) : List RenderItem :=
  let m := get_position_mapping gs
  gs.players.foldr
    (fun p acc =>
      .panelSkeleton p.position (circle_seat_index c m p) ::
        ((if drawInfo then [.panelText p.position p.stack] else []) ++
          (if p.is_dealer then [.dealerButton (circle_seat_index c m p)]
           else []) ++ acc))
    []

/-- Modelled from the spec: the `draw_player_text` method called by
`create_visualization` is missing from the `PlayerDrawer` revision in the
source tree; per spec section 4.4 it draws each player's position label
and stack text (the per-hand panel content). -/
def draw_player_text (gs : GameState) : List RenderItem :=
  gs.players.map (fun p => .panelText p.position p.stack)

/-- `PokerTableVisualizer.create_template`, content stored in
`self.template_base`: table surface without dynamic text, the state-colored
player circles, then the villain card backs ("Villain cards are drawn
between the circle and the rectangle"). -/
def template_base_items (c : PokerTableConfig) (gs : GameState) :
    List RenderItem :=
  draw_table_items gs false ++ draw_player_circles c gs ++
    draw_player_cards c gs

/-- `self.rectangles_overlay`: the pre-rendered panel overlay
(`draw_player_rectangles(draw_info=False)`). -/
def rectangles_overlay_items (c : PokerTableConfig) (gs : GameState) :
    List RenderItem :=
  draw_player_rectangles c gs false

/-- `self.template_image`: base template composited with the panel
overlay. -/
def template_image_items (c : PokerTableConfig) (gs : GameState) :
    List RenderItem :=
  template_base_items c gs ++ rectangles_overlay_items c gs

/-- The per-call dynamic pass of `create_visualization`, drawn on top of
the cloned `template_base`: hero cards (when both card strings are
truthy), the panel overlay, the player info text, the chip stacks, and the
dynamic table text, in that order. -/
def dynamic_tail_items (assets : List String) (c : PokerTableConfig)
    (gs : GameState) (card1 card2 : Option String)
    (chipDraws : List ChipDraw) : List RenderItem :=
  (if truthyCard card1 && truthyCard card2 then
    [.heroCards (draw_hero_cards assets c gs card1 card2)]
   else []) ++
    rectangles_overlay_items c gs ++
    draw_player_text gs ++
    chipDraws.map .chipStackDraw ++
    draw_table_text_items gs

/-- `PokerTableVisualizer.create_visualization` on a visualizer whose
template is already built: `refresh` restores the cached `template_base`
and every hand-dependent pass is re-run on top of it; a chip-drawing
exception propagates to the caller. -/
def create_visualization (assets : List String) (c : PokerTableConfig)
    (gs : GameState) (card1 card2 : Option String) :
    Except ChipError (List RenderItem) :=
  match Chips.draw_player_chips c gs with
  | .error e => .error e
  | .ok chipDraws =>
    .ok (template_base_items c gs ++
      dynamic_tail_items assets c gs card1 card2 chipDraws)

/-- The hand-specific item kinds named by claim C8: cards (hero cards and
face-down villain cards), stacks (panel info text), bets (chip stacks),
pot and scenario text. -/
def isHandSpecific : RenderItem → Bool
  | .heroCards _ => true
  | .villainCardBack _ _ _ => true
  | .chipStackDraw _ => true
  | .panelText _ _ => true
  | .scenarioText => true
  | .potText _ => true
  | _ => false

end Render

namespace GameData

/-- The hero index used by the rotation branch of `get_position_mapping`
(defaulting to 0; it is only referred to when the index exists). -/
def heroIdx (n : Nat) (hp : String) : Nat :=
  (listIndex (standard_positions_by_count n) hp).getD 0

/-- The bundle of properties of the rotation branch of
`get_position_mapping` stated by claims C2/C3: seats are exactly
`0..n-1` in order, position codes are pairwise distinct, the hero maps to
seat 0, canonical index `(h+i) mod n` maps to seat `i` (equivalently,
canonical index `i` maps to seat `(i-h) mod n`), and distinct canonical
codes map to distinct seats. -/
def mapProps (n : Nat) (hp : String) : Prop :=
  (position_map_of n (some hp)).map Prod.snd = List.range n ∧
  ((position_map_of n (some hp)).map Prod.fst).Nodup ∧
  List.lookup hp (position_map_of n (some hp)) = some 0 ∧
  (∀ i, i < n →
    List.lookup ((standard_positions_by_count n).getD ((heroIdx n hp + i) % n) "")
      (position_map_of n (some hp)) = some i) ∧
  (∀ i, i < n →
    List.lookup ((standard_positions_by_count n).getD i "")
      (position_map_of n (some hp)) = some ((n + i - heroIdx n hp) % n)) ∧
  (∀ i, i < n → ∀ j, j < n → i ≠ j →
    List.lookup ((standard_positions_by_count n).getD i "")
        (position_map_of n (some hp)) ≠
      List.lookup ((standard_positions_by_count n).getD j "")
        (position_map_of n (some hp)))

instance (n : Nat) (hp : String) : Decidable (mapProps n hp) := by
  unfold mapProps
  infer_instance

/-- The invariant asserted by claim C3 for an arbitrary game state: the
position-to-seat map is total over the players present, distinct position
codes get distinct seats, and every assigned seat is below the player
count. -/
def totalBijectionOverPresent (gs : GameState) : Prop :=
  (∀ p ∈ gs.players,
    (List.lookup p.position (get_position_mapping gs)).isSome) ∧
  (∀ p ∈ gs.players, ∀ q ∈ gs.players, p.position ≠ q.position →
    List.lookup p.position (get_position_mapping gs) ≠
      List.lookup q.position (get_position_mapping gs)) ∧
  (∀ p ∈ gs.players,
    (List.lookup p.position (get_position_mapping gs)).all
      (fun s => s < num_players gs))

instance (gs : GameState) : Decidable (totalBijectionOverPresent gs) := by
  unfold totalBijectionOverPresent
  infer_instance

end GameData

instance : DecidableEq (Except Chips.ChipError (List Chips.ChipDraw)) :=
  fun a b =>
    match a, b with
    | .ok x, .ok y => decidable_of_iff (x = y) (by simp)
    | .error x, .error y => decidable_of_iff (x = y) (by simp)
    | .ok _, .error _ => isFalse (by simp)
    | .error _, .ok _ => isFalse (by simp)

/-- Test fixture: a player with the given position, hero/folded flags and
bet (tenths of a big blind), with a 100 BB stack and the remaining flags
cleared. -/
def mkPlayer (pos : String) (heroFlag foldedFlag : Bool) (chips : Int) :
    Player :=
  { position := pos, stack := 1000, chips_on_table := chips,
    is_hero := heroFlag, is_folded := foldedFlag, is_active := false,
    is_dealer := false }

/-- Fixture: heads-up game, hero in the small blind, no bets yet from the
hero; the big blind has 1 BB on the table and is still in the hand. -/
def gs2live : GameState :=
  { players := [mkPlayer "SB" true false 0, mkPlayer "BB" false false 10],
    pot := 30, board := "", active_position := "SB" }

/-- Fixture: heads-up game where the big blind has already folded but
still has 1 BB committed on the table. -/
def gs2fold : GameState :=
  { players := [mkPlayer "SB" true false 0, mkPlayer "BB" false true 10],
    pot := 30, board := "", active_position := "SB" }

/-- Fixture: heads-up game whose second player carries a position code
that no lookup table contains. -/
def gs2unknown : GameState :=
  { players := [mkPlayer "SB" true false 0, mkPlayer "XX" false false 10],
    pot := 30, board := "", active_position := "SB" }

/-- Fixture: six-handed game with the hero in the cutoff. -/
def gs6hero : GameState :=
  { players := [mkPlayer "LJ" false false 0, mkPlayer "HJ" false false 0,
                mkPlayer "CO" true false 0, mkPlayer "BTN" false false 0,
                mkPlayer "SB" false false 5, mkPlayer "BB" false false 10],
    pot := 15, board := "", active_position := "CO" }

/-- Fixture: full-ring game with all nine canonical position codes present
and no hero, which drives `get_position_mapping` into its default-map
fallback. -/
def gs9nohero : GameState :=
  { players := [mkPlayer "UTG" false false 0, mkPlayer "UTG+1" false false 0,
                mkPlayer "UTG+2" false false 0, mkPlayer "LJ" false false 0,
                mkPlayer "HJ" false false 0, mkPlayer "CO" false false 0,
                mkPlayer "BTN" false false 0, mkPlayer "SB" false false 5,
                mkPlayer "BB" false false 10],
    pot := 15, board := "", active_position := "UTG" }

/-- Fixture: the configuration built for `gs2live`-sized games at scale
factor 1. -/
def cfg2 : Config.PokerTableConfig := { scale_factor := 1, num_players := 2 }

/-- Fixture: the configuration built for nine-handed games at the default
scale factor 2. -/
def cfg9 : Config.PokerTableConfig := { scale_factor := 2, num_players := 9 }

namespace Chips

theorem chip_stack_go_mem (ds : List Nat) (r : Nat) :
    ∀ x ∈ chip_stack_go ds r, x ∈ ds := by
  induction ds generalizing r with
  | nil => simp [chip_stack_go]
  | cons d ds ih =>
    intro x hx
    simp only [chip_stack_go, List.mem_append] at hx
    rcases hx with h | h
    · simp [List.eq_of_mem_replicate h]
    · exact List.mem_cons_of_mem _ (ih _ x h)

theorem pairwise_ge_replicate (k d : Nat) :
    (List.replicate k d).Pairwise (· ≥ ·) := by
  induction k with
  | zero => simp
  | succ k ih =>
    rw [List.replicate_succ]
    exact List.Pairwise.cons
      (fun b hb => le_of_eq (List.eq_of_mem_replicate hb)) ih

theorem chip_stack_go_sorted (ds : List Nat) (hds : ds.Pairwise (· > ·))
    (r : Nat) : (chip_stack_go ds r).Pairwise (· ≥ ·) := by
  induction ds generalizing r with
  | nil => simp [chip_stack_go]
  | cons d ds ih =>
    rw [chip_stack_go, List.pairwise_append]
    refine ⟨pairwise_ge_replicate _ _, ih (List.Pairwise.of_cons hds) _, ?_⟩
    intro a ha b hb
    have had : a = d := List.eq_of_mem_replicate ha
    have hbds : b ∈ ds := chip_stack_go_mem ds _ b hb
    have hdb : d > b := List.rel_of_pairwise_cons hds hbds
    omega

set_option maxRecDepth 40000 in
/-- C1 (code bug): Python float floor-division miscounts on the tenths
grid (`0.3 // 0.1 == 2.0` in binary64), so the greedy decomposition of
`draw_player_chips` violates the spec's sum law: a 0.3 BB bet draws the
stack {0.1, 0.1} summing 0.2 BB, silently dropping 0.1 BB — likewise
0.8, 1.3, 2.3, ....  Concretely, on every amount below 60.5 BB the stack
sums to the amount exactly when the amount is not congruent to 0.3
(mod 0.5) BB and undersums by exactly 0.1 BB otherwise; the claim's
examples 2.6 BB and 17.5 BB do decompose as stated, and the stack is
always descending over canonical denominations. -/
theorem chip_stack_float_drop_bug :
    chip_stack 3 = [1, 1] ∧
    (chip_stack 3).sum = 2 ∧
    chip_stack 8 = [5, 1, 1] ∧
    chip_stack 26 = [10, 10, 5, 1] ∧
    chip_stack 175 = [100, 50, 10, 10, 5] ∧
    (∀ r, r < 605 → ((chip_stack r).sum = r ↔ r % 5 ≠ 3)) ∧
    (∀ r, r < 605 → r % 5 = 3 → (chip_stack r).sum + 1 = r) ∧
    (∀ r, (chip_stack r).Pairwise (· ≥ ·)) ∧
    (∀ r, ∀ d ∈ chip_stack r, d ∈ denominations) := by
  refine ⟨by decide, by decide, by decide, by decide, by decide, by decide,
    by decide, fun r => chip_stack_go_sorted denominations (by decide) r,
    fun r => chip_stack_go_mem denominations r⟩

/-- Witness for C1 at concrete inputs: the sum law fails at 0.3 BB
(3 tenths, congruent to 3 mod 5) where exactly one 0.1 chip is dropped,
and holds at the claim's example 2.6 BB. -/
theorem chip_stack_float_drop_bug_witness :
    ((chip_stack 3).sum = 3 ↔ (3 : Nat) % 5 ≠ 3) ∧
    (chip_stack 3).sum + 1 = 3 ∧
    ((chip_stack 26).sum = 26 ↔ (26 : Nat) % 5 ≠ 3) ∧
    (chip_stack 26).Pairwise (· ≥ ·) := by
  have h := chip_stack_float_drop_bug
  exact ⟨h.2.2.2.2.2.1 3 (by decide),
    h.2.2.2.2.2.2.1 3 (by decide) (by decide),
    h.2.2.2.2.2.1 26 (by decide), h.2.2.2.2.2.2.2.1 26⟩

end Chips

namespace GameData

theorem positionMap_props (n : Nat) (hp : String) (h2 : 2 ≤ n) (h9 : n ≤ 9)
    (hmem : hp ∈ standard_positions_by_count n) : mapProps n hp := by
  interval_cases n <;> fin_cases hmem <;> decide

end GameData

namespace GameData

theorem standard_length (n : Nat) (h2 : 2 ≤ n) (h9 : n ≤ 9) :
    (standard_positions_by_count n).length = n := by
  interval_cases n <;> rfl

/-- C2: for every supported player count `n ∈ [2,9]` and every hero whose
position code appears in the canonical action-order list for `n`,
`get_position_mapping` maps the `n` canonical codes onto seats `0..n-1`
bijectively, sends the hero to seat 0, and assigns the code at canonical
index `(h+i) mod n` to seat `i` — equivalently, canonical index `i` to
seat `(i-h) mod n` — where `h` is the hero's canonical index. -/
theorem get_position_mapping_hero_rotation (gs : GameState) (n : Nat)
    (hp : String) (hn : num_players gs = n) (hhp : hero_position gs = some hp)
    (h2 : 2 ≤ n) (h9 : n ≤ 9) (hmem : hp ∈ standard_positions_by_count n) :
    (get_position_mapping gs).map Prod.snd = List.range n ∧
    ((get_position_mapping gs).map Prod.fst).Nodup ∧
    List.lookup hp (get_position_mapping gs) = some 0 ∧
    (∀ i, i < n →
      List.lookup
        ((standard_positions_by_count n).getD ((heroIdx n hp + i) % n) "")
        (get_position_mapping gs) = some i) ∧
    (∀ i, i < n →
      List.lookup ((standard_positions_by_count n).getD i "")
        (get_position_mapping gs) = some ((n + i - heroIdx n hp) % n)) := by
  have h := positionMap_props n hp h2 h9 hmem
  unfold mapProps at h
  have hgs : get_position_mapping gs = position_map_of n (some hp) := by
    rw [get_position_mapping, hn, hhp]
  rw [hgs]
  exact ⟨h.1, h.2.1, h.2.2.1, h.2.2.2.1, h.2.2.2.2.1⟩

/-- Witness for C2 at a concrete input: six-handed, hero in the cutoff
(canonical index 2): CO sits at seat 0, and for instance the BTN
(canonical index 3) sits at seat `(3-2) mod 6 = 1`. -/
theorem get_position_mapping_hero_rotation_witness :
    List.lookup "CO" (get_position_mapping gs6hero) = some 0 ∧
    List.lookup ((standard_positions_by_count 6).getD 3 "")
      (get_position_mapping gs6hero) = some ((6 + 3 - heroIdx 6 "CO") % 6) := by
  have h := get_position_mapping_hero_rotation gs6hero 6 "CO" (by decide)
    (by decide) (by decide) (by decide) (by decide)
  exact ⟨h.2.2.1, h.2.2.2.2 3 (by decide)⟩

end GameData

namespace GameData

/-- Counterexample for C3: when no hero is present the code returns the
fixed default map, which assigns seat 8 to both "BB" and "UTG"; on a
nine-handed state with all canonical codes present the map is therefore
not injective over the players present (and the claimed invariant
fails). -/
theorem totalBijection_counterexample :
    List.lookup "BB" (get_position_mapping gs9nohero) = some 8 ∧
    List.lookup "UTG" (get_position_mapping gs9nohero) = some 8 ∧
    (∃ p ∈ gs9nohero.players, p.position = "BB") ∧
    (∃ p ∈ gs9nohero.players, p.position = "UTG") ∧
    ¬ totalBijectionOverPresent gs9nohero := by
  decide

/-- C3 (amended): outside the fallback cases — that is, when a hero is
present, its position code occurs in the canonical list for the table's
player count `n ∈ [2,9]`, and every present player's code is drawn from
that canonical list — the position-to-seat map is total over the players
present, assigns distinct seats to distinct codes, and keeps every seat
below `n`.  In the fallback cases (no hero, or hero code missing from the
canonical list) the fixed default map is returned and the invariant fails
(see the counterexample). -/
theorem position_mapping_bijection_over_present (gs : GameState) (n : Nat)
    (hp : String) (hn : num_players gs = n) (hhp : hero_position gs = some hp)
    (h2 : 2 ≤ n) (h9 : n ≤ 9) (hmem : hp ∈ standard_positions_by_count n)
    (hall : ∀ p ∈ gs.players, p.position ∈ standard_positions_by_count n) :
    totalBijectionOverPresent gs := by
  have h := positionMap_props n hp h2 h9 hmem
  unfold mapProps at h
  have hgs : get_position_mapping gs = position_map_of n (some hp) := by
    rw [get_position_mapping, hn, hhp]
  have hlen : (standard_positions_by_count n).length = n :=
    standard_length n h2 h9
  have hidx : ∀ p ∈ gs.players, ∃ i, i < n ∧
      (standard_positions_by_count n).getD i "" = p.position := by
    intro p hpmem
    obtain ⟨i, hi, hget⟩ := List.mem_iff_getElem.mp (hall p hpmem)
    exact ⟨i, hlen ▸ hi,
      (List.getD_eq_getElem (standard_positions_by_count n) "" hi).trans hget⟩
  refine ⟨?_, ?_, ?_⟩
  · intro p hpmem
    obtain ⟨i, hi, hget⟩ := hidx p hpmem
    rw [get_position_mapping, hn, hhp, ← hget,
      h.2.2.2.2.1 i hi]
    rfl
  · intro p hpmem q hqmem hne
    obtain ⟨i, hi, hgi⟩ := hidx p hpmem
    obtain ⟨j, hj, hgj⟩ := hidx q hqmem
    have hij : i ≠ j := by
      intro hij
      exact hne (hgi ▸ hij ▸ hgj)
    rw [hgs, ← hgi, ← hgj]
    exact h.2.2.2.2.2 i hi j hj hij
  · intro p hpmem
    obtain ⟨i, hi, hget⟩ := hidx p hpmem
    rw [get_position_mapping, hn, hhp, ← hget, h.2.2.2.2.1 i hi]
    simp only [Option.all_some, decide_eq_true_eq]
    exact Nat.mod_lt _ (by omega)

/-- Witness for C3 (amended) at a concrete input: six-handed with hero in
the cutoff and all codes canonical, the invariant holds. -/
theorem position_mapping_bijection_over_present_witness :
    totalBijectionOverPresent gs6hero :=
  position_mapping_bijection_over_present gs6hero 6 "CO" (by decide)
    (by decide) (by decide) (by decide) (by decide) (by decide)

end GameData

namespace Config

/-- C4: for every supported player count `n ∈ [2,9]` (and any scale
factor), `_init_seat_positions` builds a seat table of length exactly `n`
whose entry at index 0 is the hero seat at bottom-center,
`(table_center_x, table_center_y + 0.75 * table_height)`. -/
theorem seat_positions_length_and_hero_seat (s n : Nat) (h2 : 2 ≤ n)
    (h9 : n ≤ 9) :
    (seat_positions ⟨s, n⟩).length = n ∧
    (seat_positions ⟨s, n⟩).getD 0 (0, 0) =
      ((table_center_x ⟨s, n⟩ : ℚ),
       (table_center_y ⟨s, n⟩ : ℚ) + (table_height ⟨s, n⟩ : ℚ) * (3 / 4)) := by
  interval_cases n <;> exact ⟨rfl, rfl⟩

/-- Witness for C4 at a concrete input: the nine-handed table at the
default scale factor. -/
theorem seat_positions_length_and_hero_seat_witness :
    (seat_positions cfg9).length = 9 ∧
    (seat_positions cfg9).getD 0 (0, 0) =
      ((table_center_x cfg9 : ℚ),
       (table_center_y cfg9 : ℚ) + (table_height cfg9 : ℚ) * (3 / 4)) :=
  seat_positions_length_and_hero_seat 2 9 (by decide) (by decide)

/-- Counterexample for C5: at player count 1 the code does not clamp to
the nearest supported value (which is 2) — it replaces any unsupported
count by the fixed default 8 and builds the 8-seat layout. -/
theorem clamp_not_nearest_counterexample :
    clampPlayerCount 1 = 8 ∧ nearestSupported 1 = 2 ∧
    (seat_positions ⟨1, 1⟩).length = 8 ∧
    clampPlayerCount 1 ≠ nearestSupported 1 := by
  refine ⟨rfl, rfl, rfl, by decide⟩

/-- C5 (amended): for every player count outside `[2,9]` (and any scale
factor), building the configuration never raises: the count is replaced by
the fixed default 8 — not the nearest supported value — a warning is
printed, and the seat layout is built for 8 seats. -/
theorem invalid_count_defaults_to_eight (s n : Nat) (hout : n < 2 ∨ 9 < n) :
    clampPlayerCount n = 8 ∧ (seat_positions ⟨s, n⟩).length = 8 := by
  have hc : clampPlayerCount n = 8 := by
    unfold clampPlayerCount
    have hno : ¬(n = 2 ∨ n = 3 ∨ n = 4 ∨ n = 5 ∨ n = 6 ∨ n = 7 ∨ n = 8 ∨
        n = 9) := by omega
    simp [hno]
  refine ⟨hc, ?_⟩
  simp only [seat_positions, hc]
  rfl

/-- Witness for C5 (amended) at a concrete input: player count 10 yields
the 8-seat layout. -/
theorem invalid_count_defaults_to_eight_witness :
    clampPlayerCount 10 = 8 ∧
    (seat_positions ⟨1, 10⟩).length = 8 :=
  invalid_count_defaults_to_eight 1 10 (by decide)

end Config

namespace Render

open GameData Config Chips

theorem draw_player_chips_go_error (c : PokerTableConfig)
    (m : List (String × Nat)) (ps : List Player)
    (h : ∃ p ∈ ps, p.is_hero = false ∧ 0 < p.chips_on_table ∧
      List.lookup p.position m = none) :
    ∃ e, draw_player_chips_go c m ps = .error e := by
  induction ps with
  | nil => simp at h
  | cons q ps ih =>
    obtain ⟨p, hpmem, hph, hpc, hpl⟩ := h
    rcases List.mem_cons.mp hpmem with rfl | hmem
    · have hq : ¬ p.chips_on_table ≤ 0 := by omega
      refine ⟨.positionNotFound p.position, ?_⟩
      simp [draw_player_chips_go, hq, hph, hpl]
    · by_cases hq : q.chips_on_table ≤ 0
      · obtain ⟨e, he⟩ := ih ⟨p, hmem, hph, hpc, hpl⟩
        exact ⟨e, by simp [draw_player_chips_go, hq, he]⟩
      · cases hseat : (if q.is_hero then some 0 else List.lookup q.position m)
          with
        | none =>
          exact ⟨.positionNotFound q.position,
            by simp [draw_player_chips_go, hq, hseat]⟩
        | some s =>
          by_cases hlt : s < (seat_positions c).length
          · obtain ⟨e, he⟩ := ih ⟨p, hmem, hph, hpc, hpl⟩
            exact ⟨e, by simp [draw_player_chips_go, hq, hseat, hlt, he]⟩
          · exact ⟨.seatOutOfRange s,
              by simp [draw_player_chips_go, hq, hseat, hlt]⟩

/-- C6: unknown position codes are handled asymmetrically.  Player-disc
rendering (`draw_player_circles`) draws exactly one disc per player and
assigns every non-hero player whose code is absent from the seat mapping
the fallback seat `min(8, len(seat_positions) - 1)` without raising; chip
rendering (`draw_player_chips`) raises to the caller whenever any
non-hero player with a positive bet has a code absent from the seat
mapping. -/
theorem unknown_position_asymmetry (c : PokerTableConfig) (gs : GameState) :
    (draw_player_circles c gs).length = gs.players.length ∧
    (∀ p ∈ gs.players, p.is_hero = false →
      List.lookup p.position (get_position_mapping gs) = none →
      RenderItem.playerCircle p.position
          (min 8 ((seat_positions c).length - 1)) (color_of gs p) ∈
        draw_player_circles c gs) ∧
    ((∃ p ∈ gs.players, p.is_hero = false ∧ 0 < p.chips_on_table ∧
        List.lookup p.position (get_position_mapping gs) = none) →
      ∃ e, Chips.draw_player_chips c gs = .error e) := by
  refine ⟨by simp [draw_player_circles], ?_, ?_⟩
  · intro p hpmem hph hpl
    have hseat : circle_seat_index c (get_position_mapping gs) p =
        min 8 ((seat_positions c).length - 1) := by
      simp [circle_seat_index, hph, hpl]
    simp only [draw_player_circles]
    exact List.mem_map.mpr ⟨p, hpmem, by simp only [hseat]⟩
  · intro h
    exact draw_player_chips_go_error c (get_position_mapping gs) gs.players h

/-- Witness for C6 at a concrete input: heads-up with hero in the small
blind and a second player whose code "XX" is unknown; the disc pass
assigns the fallback seat `min(8, 2-1) = 1`, while the chip pass raises
because that player has 1 BB on the table. -/
theorem unknown_position_asymmetry_witness :
    RenderItem.playerCircle "XX" (min 8 ((seat_positions cfg2).length - 1))
        (color_of gs2unknown (mkPlayer "XX" false false 10)) ∈
      draw_player_circles cfg2 gs2unknown ∧
    ∃ e, Chips.draw_player_chips cfg2 gs2unknown = .error e := by
  have h := unknown_position_asymmetry cfg2 gs2unknown
  refine ⟨h.2.1 (mkPlayer "XX" false false 10) (by decide) (by decide)
    (by decide), h.2.2 ?_⟩
  exact ⟨mkPlayer "XX" false false 10, by decide, by decide, by decide,
    by decide⟩

end Render

namespace Chips

open GameData Config

/-- Counterexample for C7: `draw_player_chips` has no folded check — in a
heads-up state whose big blind has folded but still has 1 BB committed,
the folded player's chip stack and bet label are drawn anyway. -/
theorem folded_player_chips_counterexample :
    (∃ p ∈ gs2fold.players, p.is_folded = true ∧ 0 < p.chips_on_table ∧
      p.position = "BB") ∧
    draw_player_chips cfg2 gs2fold =
      .ok [{ position := "BB", seatIndex := 1, stack := [10],
             amount := 10 }] := by
  decide

theorem draw_player_chips_go_ok (c : PokerTableConfig)
    (m : List (String × Nat)) (ps : List Player)
    (hres : ∀ p ∈ ps, 0 < p.chips_on_table →
      (if p.is_hero then some 0 else List.lookup p.position m).any
        (fun s => s < (seat_positions c).length) = true) :
    ∃ l, draw_player_chips_go c m ps = .ok l ∧
      l.map (fun d => d.position) =
        (ps.filter (fun p => 0 < p.chips_on_table)).map
          (fun p => p.position) ∧
      l.map (fun d => d.amount) =
        (ps.filter (fun p => 0 < p.chips_on_table)).map
          (fun p => p.chips_on_table) ∧
      l.map (fun d => d.stack) =
        (ps.filter (fun p => 0 < p.chips_on_table)).map
          (fun p => chip_stack p.chips_on_table.toNat) := by
  induction ps with
  | nil => exact ⟨[], rfl, rfl, rfl, rfl⟩
  | cons q ps ih =>
    obtain ⟨l, hl, h1, h2, h3⟩ :=
      ih (fun p hp hc => hres p (List.mem_cons_of_mem q hp) hc)
    by_cases hq : q.chips_on_table ≤ 0
    · have hqneg : ¬ (0 < q.chips_on_table) := by omega
      refine ⟨l, ?_, ?_, ?_, ?_⟩ <;>
        simp [draw_player_chips_go, hq, hqneg, hl, h1, h2, h3]
    · have hqpos : 0 < q.chips_on_table := by omega
      have hany := hres q (List.mem_cons_self q ps) hqpos
      cases hseat : (if q.is_hero then some 0 else
          List.lookup q.position m) with
      | none => rw [hseat] at hany; simp [Option.any] at hany
      | some s =>
        rw [hseat] at hany
        simp only [Option.any_some, decide_eq_true_eq] at hany
        refine ⟨⟨q.position, s, chip_stack q.chips_on_table.toNat,
          q.chips_on_table⟩ :: l, ?_, ?_, ?_, ?_⟩ <;>
          simp [draw_player_chips_go, hq, hseat, hany, hl, h1, h2, h3, hqpos]

/-- C7 (amended): `draw_player_chips` renders a chip stack and bet label
exactly for the players with `chips_on_table > 0`, folded or not —
players with a non-positive bet are skipped entirely, and the folded flag
plays no role — provided every such player's seat resolves (hero to seat
0, otherwise through the mapping, within the seat table). -/
theorem draw_player_chips_exactly_positive_bets (c : PokerTableConfig)
    (gs : GameState)
    (hres : ∀ p ∈ gs.players, 0 < p.chips_on_table →
      (if p.is_hero then some 0
       else List.lookup p.position (get_position_mapping gs)).any
        (fun s => s < (seat_positions c).length) = true) :
    ∃ l, draw_player_chips c gs = .ok l ∧
      l.map (fun d => d.position) =
        (gs.players.filter (fun p => 0 < p.chips_on_table)).map
          (fun p => p.position) ∧
      l.map (fun d => d.amount) =
        (gs.players.filter (fun p => 0 < p.chips_on_table)).map
          (fun p => p.chips_on_table) ∧
      l.map (fun d => d.stack) =
        (gs.players.filter (fun p => 0 < p.chips_on_table)).map
          (fun p => chip_stack p.chips_on_table.toNat) :=
  draw_player_chips_go_ok c (get_position_mapping gs) gs.players hres

/-- Witness for C7 (amended) at a concrete input: heads-up, hero without a
bet, big blind with 1 BB on the table — exactly one stack is drawn, for
the big blind. -/
theorem draw_player_chips_exactly_positive_bets_witness :
    ∃ l, draw_player_chips cfg2 gs2live = .ok l ∧
      l.map (fun d => d.position) =
        (gs2live.players.filter (fun p => 0 < p.chips_on_table)).map
          (fun p => p.position) ∧
      l.map (fun d => d.amount) =
        (gs2live.players.filter (fun p => 0 < p.chips_on_table)).map
          (fun p => p.chips_on_table) ∧
      l.map (fun d => d.stack) =
        (gs2live.players.filter (fun p => 0 < p.chips_on_table)).map
          (fun p => chip_stack p.chips_on_table.toNat) :=
  draw_player_chips_exactly_positive_bets cfg2 gs2live (by decide)

end Chips

namespace Render

open GameData Config Chips

/-- Counterexample for C8: the cached template is not hand-independent.
`create_template` draws the opponents' face-down card backs into
`template_base`, and which card backs exist depends on the hand's fold
flags: with the big blind still in the hand the template contains its card
backs, while the same table with the big blind folded — the same
(player count, hero seat) cache key — does not. -/
theorem template_stores_hand_content_counterexample :
    RenderItem.villainCardBack "BB" 1 5 ∈ template_base_items cfg2 gs2live ∧
    isHandSpecific (RenderItem.villainCardBack "BB" 1 5) = true ∧
    RenderItem.villainCardBack "BB" 1 5 ∉ template_base_items cfg2 gs2fold ∧
    ¬ (∀ it ∈ template_base_items cfg2 gs2live,
        isHandSpecific it = false) := by
  decide

theorem foldr_mem {α β : Type} (f : α → List β → List β) (P : β → Prop)
    (hf : ∀ a acc b, b ∈ f a acc → P b ∨ b ∈ acc) (l : List α) :
    ∀ b ∈ l.foldr f [], P b := by
  induction l with
  | nil => simp
  | cons a l ih =>
    intro b hb
    rcases hf a _ b hb with h | h
    · exact h
    · exact ih b h

theorem draw_player_cards_shape (c : Config.PokerTableConfig)
    (gs : GameState) :
    ∀ it ∈ draw_player_cards c gs,
      ∃ pos seat rot, it = RenderItem.villainCardBack pos seat rot := by
  intro it hit
  refine foldr_mem _
    (fun b => ∃ pos seat rot, b = RenderItem.villainCardBack pos seat rot)
    ?_ gs.players it hit
  intro p acc b hb
  by_cases hh : p.is_hero
  · rw [if_pos hh] at hb
    exact Or.inr hb
  · rw [if_neg hh] at hb
    by_cases hf : p.is_folded
    · rw [if_pos hf] at hb
      exact Or.inr hb
    · rw [if_neg hf] at hb
      cases hl : List.lookup p.position (get_position_mapping gs) with
      | none => rw [hl] at hb; exact Or.inr hb
      | some s =>
        rw [hl] at hb
        rcases List.mem_cons.mp hb with rfl | hb
        · exact Or.inl ⟨p.position, s, 5, rfl⟩
        · rcases List.mem_cons.mp hb with rfl | hb
          · exact Or.inl ⟨p.position, s, -5, rfl⟩
          · exact Or.inr hb

theorem draw_player_rectangles_not_hand_specific
    (c : Config.PokerTableConfig) (gs : GameState) :
    ∀ it ∈ draw_player_rectangles c gs false,
      isHandSpecific it = false := by
  intro it hit
  refine foldr_mem _ (fun b => isHandSpecific b = false) ?_ gs.players it hit
  intro p acc b hb
  rcases List.mem_cons.mp hb with rfl | hb2
  · exact Or.inl rfl
  · rcases List.mem_append.mp hb2 with hb3 | hb4
    · rcases List.mem_append.mp hb3 with hb5 | hb6
      · simp at hb5
      · by_cases hd : p.is_dealer
        · rw [if_pos hd] at hb6
          rcases List.mem_singleton.mp hb6 with rfl
          exact Or.inl rfl
        · rw [if_neg hd] at hb6
          simp at hb6
    · exact Or.inr hb4

/-- C8 (amended): the cached template (base plus panel overlay) stores,
besides the geometry-and-palette content (background, table surface
without dynamic text, panel skeletons, dealer marker) and the
state-colored seat discs, exactly one kind of hand-specific content: the
opponents' face-down card backs.  It never stores hero cards, chip stacks
or bet labels, pot text, scenario text, or panel info text; every render
that reuses the template starts from the cached base and re-draws all of
those per call (hero cards when both card strings are given, panels,
player text, chips, scenario and pot text). -/
theorem template_cache_static_dynamic_split (assets : List String)
    (c : Config.PokerTableConfig) (gs : GameState)
    (card1 card2 : Option String) :
    (∀ it ∈ template_image_items c gs, isHandSpecific it = true →
      ∃ pos seat rot, it = RenderItem.villainCardBack pos seat rot) ∧
    (∀ l, create_visualization assets c gs card1 card2 = .ok l →
      RenderItem.scenarioText ∈ l ∧ RenderItem.potText gs.pot ∈ l ∧
      ∃ chips, Chips.draw_player_chips c gs = .ok chips ∧
        l = template_base_items c gs ++
          dynamic_tail_items assets c gs card1 card2 chips) := by
  constructor
  · intro it hit hspec
    simp only [template_image_items, template_base_items,
      rectangles_overlay_items, draw_table_items, Bool.false_eq_true,
      ite_false, List.append_nil, List.mem_append, List.mem_cons,
      List.not_mem_nil, or_false] at hit
    rcases hit with (((rfl | rfl) | h) | h) | h
    · simp [isHandSpecific] at hspec
    · simp [isHandSpecific] at hspec
    · obtain ⟨p, _, rfl⟩ := List.mem_map.mp
        (by simpa [draw_player_circles] using h)
      simp [isHandSpecific] at hspec
    · exact draw_player_cards_shape c gs it h
    · rw [draw_player_rectangles_not_hand_specific c gs it h] at hspec
      simp at hspec
  · intro l hl
    unfold create_visualization at hl
    cases hchips : Chips.draw_player_chips c gs with
    | error e => rw [hchips] at hl; exact absurd hl (by simp)
    | ok chips =>
      rw [hchips] at hl
      have hleq : l = template_base_items c gs ++
          dynamic_tail_items assets c gs card1 card2 chips := by
        cases hl; rfl
      refine ⟨?_, ?_, chips, rfl, hleq⟩
      · rw [hleq]
        refine List.mem_append_right _ ?_
        simp [dynamic_tail_items, draw_table_text_items]
      · rw [hleq]
        refine List.mem_append_right _ ?_
        simp [dynamic_tail_items, draw_table_text_items]

/-- Witness for C8 (amended) at a concrete input: heads-up hand with hero
cards given; the only hand-specific template item kind is a villain card
back, and the full render is the cached base followed by the re-drawn
dynamic tail containing the scenario and pot text. -/
theorem template_cache_static_dynamic_split_witness :
    (∃ pos seat rot, (RenderItem.villainCardBack "BB" 1 5 : RenderItem) =
      RenderItem.villainCardBack pos seat rot) ∧
    (RenderItem.scenarioText ∈ template_base_items cfg2 gs2live ++
        dynamic_tail_items [] cfg2 gs2live (some "As") (some "Kd")
          [⟨"BB", 1, Chips.chip_stack 10, 10⟩] ∧
      RenderItem.potText gs2live.pot ∈ template_base_items cfg2 gs2live ++
        dynamic_tail_items [] cfg2 gs2live (some "As") (some "Kd")
          [⟨"BB", 1, Chips.chip_stack 10, 10⟩] ∧
      ∃ chips, Chips.draw_player_chips cfg2 gs2live = .ok chips ∧
        template_base_items cfg2 gs2live ++
            dynamic_tail_items [] cfg2 gs2live (some "As") (some "Kd")
              [⟨"BB", 1, Chips.chip_stack 10, 10⟩] =
          template_base_items cfg2 gs2live ++
            dynamic_tail_items [] cfg2 gs2live (some "As") (some "Kd")
              chips) := by
  have h := template_cache_static_dynamic_split [] cfg2 gs2live
    (some "As") (some "Kd")
  exact ⟨h.1 (RenderItem.villainCardBack "BB" 1 5) (by decide) (by decide),
    h.2 (template_base_items cfg2 gs2live ++
      dynamic_tail_items [] cfg2 gs2live (some "As") (some "Kd")
        [⟨"BB", 1, Chips.chip_stack 10, 10⟩]) rfl⟩

end Render

namespace Cards

theorem card_key_eq_claim (card : String) :
    card_key card = claim_card_key card := by
  unfold card_key claim_card_key card_rank_suit
  simp only []
  by_cases hcond : ((card.toList.getD 0 ' ').toUpper = '1' ∧
      card.length > 2 ∧ card.toList.getD 1 ' ' = '0')
  · simp only [if_pos hcond]
  · simp only [if_neg hcond]

/-- C9: for every card code of at least two characters whose lookup key
has no backing image asset, `draw_card` does not raise: it composites the
programmatically drawn fallback card at the requested position with the
requested dimensions and rotation.  The lookup key agrees with the
claim's description (uppercased rank character followed by lowercased
suit character, rank "10" normalized to "T"); e.g. "10h" keys as "Th",
"ah" as "Ah" and "Td" as "Td". -/
theorem draw_card_missing_asset_fallback (assets : List String)
    (card : String) (x y : ℚ) (w h : Nat) (rot : Int)
    (hlen : 2 ≤ card.length) (hmiss : card_key card ∉ assets) :
    draw_card assets card x y w h rot =
      .fallback (card_rank_suit card).1 (card_rank_suit card).2 x y w h
        rot ∧
    card_key card = claim_card_key card ∧
    card_key "10h" = "Th" ∧ card_key "ah" = "Ah" ∧ card_key "Td" = "Td" := by
  refine ⟨?_, card_key_eq_claim card, by decide, by decide, by decide⟩
  rw [draw_card, if_neg (by omega), if_neg hmiss]

/-- Witness for C9 at a concrete input: with no image assets at all, the
three-character code "10h" is drawn as a fallback card face with rank "T"
and suit h at the requested geometry. -/
theorem draw_card_missing_asset_fallback_witness :
    draw_card [] "10h" 0 0 80 120 5 =
      .fallback (card_rank_suit "10h").1 (card_rank_suit "10h").2 0 0 80
        120 5 ∧
    card_key "10h" = claim_card_key "10h" ∧
    card_key "10h" = "Th" ∧ card_key "ah" = "Ah" ∧ card_key "Td" = "Td" :=
  draw_card_missing_asset_fallback [] "10h" 0 0 80 120 5 (by decide)
    (by decide)

/-- C10: when the game state has no hero, or either hero hole card is
missing (`None`) or empty, `draw_hero_cards` is a no-op: it draws nothing,
raises nothing, and leaves the image unchanged. -/
theorem draw_hero_cards_noop (assets : List String)
    (c : Config.PokerTableConfig) (gs : GameState)
    (card1 card2 : Option String)
    (h : GameData.hero gs = none ∨ truthyCard card1 = false ∨
      truthyCard card2 = false) :
    draw_hero_cards assets c gs card1 card2 = [] := by
  have hcond : ((GameData.hero gs).isNone = true ∨
      (!truthyCard card1) = true ∨ (!truthyCard card2) = true) := by
    rcases h with h | h | h
    · exact Or.inl (by simp [h])
    · exact Or.inr (Or.inl (by simp [h]))
    · exact Or.inr (Or.inr (by simp [h]))
  rw [draw_hero_cards, if_pos hcond]

/-- Witness for C10 at concrete inputs: a heroless nine-handed state draws
no hero cards even with both card strings present, and a state with a
hero draws nothing when one card string is empty. -/
theorem draw_hero_cards_noop_witness :
    draw_hero_cards [] cfg9 gs9nohero (some "Ah") (some "Kd") = [] ∧
    draw_hero_cards [] cfg2 gs2live (some "Ah") (some "") = [] :=
  ⟨draw_hero_cards_noop [] cfg9 gs9nohero (some "Ah") (some "Kd")
      (Or.inl (by decide)),
   draw_hero_cards_noop [] cfg2 gs2live (some "Ah") (some "")
      (Or.inr (Or.inr (by decide)))⟩

end Cards
